import Mathlib

/-!
Verification of the planar leg-kinematics engine: a shallow embedding of the
geometry primitives (utils.py), the four leg models (configs/serial.py,
configs/pantograph.py, configs/fivebar.py), the workspace scanner
(configs/leg_interface.py), the alpha-shape boundary extractor and the
max-centered-ellipse fitter (utils.py), with theorems settling the stated
properties.  Machine floats are modelled by real numbers; the Delaunay
triangulation (a scipy call, not part of this repository) is modelled as an
input list of index triples.
-/

open scoped Classical

noncomputable section

/-- A planar point or vector in millimetres (an `np.ndarray` of shape 2). -/
abbrev Point : Type := ℝ × ℝ

/-- pol2cart from utils.py: polar (radius, angle) to cartesian (x, y). -/
def pol2cart (rho phi : ℝ) : Point :=
  (rho * Real.cos phi, rho * Real.sin phi)

/-- np.radians: degrees to radians. -/
def radians (deg : ℝ) : ℝ := deg * (Real.pi / 180)

/-- np.degrees: radians to degrees. -/
def degrees (rad : ℝ) : ℝ := rad * (180 / Real.pi)

/-- np.linalg.norm of a 2-vector. -/
def vnorm (v : Point) : ℝ := Real.sqrt (v.1 ^ 2 + v.2 ^ 2)

/-- np.arctan2 y x, the angle of the vector (x, y), in (-pi, pi]. -/
def arctan2 (y x : ℝ) : ℝ := Complex.arg (Complex.mk x y)

/-- get_circle_intersection from utils.py: the chosen intersection point of the
circle with centre p1 and radius r1 and the circle with centre p2 and radius
r2, or none when they are too far apart, nested or concentric.  chirality
selects between the two mirror solutions (the code tests chirality == 1). -/
def get_circle_intersection (p1 : Point) (r1 : ℝ) (p2 : Point) (r2 : ℝ)
    (chirality : ℤ) : Option Point :=
  let d2 := (p1.1 - p2.1) ^ 2 + (p1.2 - p2.2) ^ 2
  let d := Real.sqrt d2
  if d > r1 + r2 ∨ d < |r1 - r2| ∨ d = 0 then none
  else
    let a := (r1 ^ 2 - r2 ^ 2 + d2) / (2 * d)
    let h := Real.sqrt (max 0 (r1 ^ 2 - a ^ 2))
    let x2 := p1.1 + a * (p2.1 - p1.1) / d
    let y2 := p1.2 + a * (p2.2 - p1.2) / d
    let dx := p2.2 - p1.2
    let dy := p2.1 - p1.1
    if chirality = 1 then some (x2 + h * dx / d, y2 - h * dy / d)
    else some (x2 - h * dx / d, y2 + h * dy / d)

/-- dist_point_segment from utils.py: minimum distance from point p to the
segment from a to b (distance to a when the segment degenerates). -/
def dist_point_segment (p a b : Point) : ℝ :=
  let ab := b - a
  let ap := p - a
  let len_sq := ab.1 ^ 2 + ab.2 ^ 2
  if len_sq = 0 then vnorm ap
  else
    let t := max 0 (min 1 ((ap.1 * ab.1 + ap.2 * ab.2) / len_sq))
    vnorm (p - (a + (t * ab.1, t * ab.2)))

/-- ccw from utils.py: the strict counter-clockwise orientation test. -/
def ccw (A B C : Point) : Bool :=
  decide ((C.2 - A.2) * (B.1 - A.1) > (B.2 - A.2) * (C.1 - A.1))

/-- intersect from utils.py: whether segments AB and CD properly cross
(strict orientation comparisons, so touching or collinear cases are false). -/
def intersect (A B C D : Point) : Bool :=
  (ccw A C D != ccw B C D) && (ccw A B C != ccw A B D)

/-- min_dist_segments from utils.py: 0 when the two segments cross, otherwise
the least of the four endpoint-to-segment distances. -/
def min_dist_segments (seg1 seg2 : Point × Point) : ℝ :=
  if intersect seg1.1 seg1.2 seg2.1 seg2.2 then 0
  else
    min (min (dist_point_segment seg2.1 seg1.1 seg1.2)
             (dist_point_segment seg2.2 seg1.1 seg1.2))
        (min (dist_point_segment seg1.1 seg2.1 seg2.2)
             (dist_point_segment seg1.2 seg2.1 seg2.2))

/-- Center distance of the two circles, as the code computes it. -/
def center_dist (p1 p2 : Point) : ℝ :=
  Real.sqrt ((p1.1 - p2.1) ^ 2 + (p1.2 - p2.2) ^ 2)

/-- The candidate solution point computed in the feasible branch of
get_circle_intersection: (x3_1, y3_1) for chirality 1, (x3_2, y3_2)
otherwise. -/
def circle_sol (p1 : Point) (r1 : ℝ) (p2 : Point) (r2 : ℝ)
    (chirality : ℤ) : Point :=
  let d2 := (p1.1 - p2.1) ^ 2 + (p1.2 - p2.2) ^ 2
  let d := Real.sqrt d2
  let a := (r1 ^ 2 - r2 ^ 2 + d2) / (2 * d)
  let h := Real.sqrt (max 0 (r1 ^ 2 - a ^ 2))
  let x2 := p1.1 + a * (p2.1 - p1.1) / d
  let y2 := p1.2 + a * (p2.2 - p1.2) / d
  let dx := p2.2 - p1.2
  let dy := p2.1 - p1.1
  if chirality = 1 then (x2 + h * dx / d, y2 - h * dy / d)
  else (x2 - h * dx / d, y2 + h * dy / d)

/-- Reflection of the point q across the line through p1 and p2 (welldefined
when the two centres differ); this is the spec's relation between the two
chirality branches. -/
def reflect_across_line (p1 p2 q : Point) : Point :=
  let v : Point := (p2.1 - p1.1, p2.2 - p1.2)
  let t := ((q.1 - p1.1) * v.1 + (q.2 - p1.2) * v.2) / (v.1 ^ 2 + v.2 ^ 2)
  (2 * (p1.1 + t * v.1) - q.1, 2 * (p1.2 + t * v.2) - q.2)

/-- Relative servo 1 position shared by the five-bar and pantograph models. -/
def servo1_pos : Point := (-15, -10)

/-- Relative servo 2 position shared by the five-bar and pantograph models. -/
def servo2_pos : Point := (0, 0)

/-- Base position of the serial leg. -/
def base_pos : Point := (0, 0)

/-- Collision threshold: every concrete leg constructor sets 10 mm (servo
radius 6 mm + margin 4 mm); the LegModel base default of 5 mm is always
overridden. -/
def collision_threshold : ℝ := 10

/-- Link lengths and calibration offsets of a five-bar leg (fields l1..l5,
offset_t1, offset_t2 of FiveBarRearLeg / FiveBarFrontLeg). -/
structure FiveBarParams where
  l1 : ℝ
  l2 : ℝ
  l3 : ℝ
  l4 : ℝ
  l5 : ℝ
  offset_t1 : ℝ
  offset_t2 : ℝ

/-- The joint dictionary produced by five-bar forward kinematics. -/
structure FiveBarJoints where
  S1 : Point
  S2 : Point
  A : Point
  B : Point
  C : Point
  Foot : Point

/-- The elbow point A of the rear five-bar (point_a in forward_kinematics):
servo 1 position plus the L1 link at the offset-corrected angle. -/
def fiveBarRear_point_a (m : FiveBarParams) (theta1_deg : ℝ) : Point :=
  servo1_pos + pol2cart m.l1 (radians theta1_deg + m.offset_t1)

/-- The elbow point C of the rear five-bar (point_c in forward_kinematics). -/
def fiveBarRear_point_c (m : FiveBarParams) (theta2_deg : ℝ) : Point :=
  servo2_pos + pol2cart m.l3 (radians theta2_deg + m.offset_t2)

/-- FiveBarRearLeg.forward_kinematics.  The source returns the pair
(None, {}) on failure and (foot, joints-dict) on success; the two shapes are
modelled as none and some (foot, joints). -/
def fiveBarRear_forward_kinematics (m : FiveBarParams)
    (theta1_deg theta2_deg : ℝ) : Option (Point × FiveBarJoints) :=
  let point_a := fiveBarRear_point_a m theta1_deg
  let point_c := fiveBarRear_point_c m theta2_deg
  match get_circle_intersection point_a m.l2 point_c m.l4 (-1) with
  | none => none
  | some point_b =>
    let vec_cb := point_c - point_b
    let norm := vnorm vec_cb
    if norm < 1e-6 then none
    else
      let unit_vector : Point := (vec_cb.1 / norm, vec_cb.2 / norm)
      let point_foot : Point :=
        (point_c.1 + unit_vector.1 * m.l5, point_c.2 + unit_vector.2 * m.l5)
      some (point_foot,
        ⟨servo1_pos, servo2_pos, point_a, point_b, point_c, point_foot⟩)

/-- The elbow point A of the front five-bar (point_a in forward_kinematics). -/
def fiveBarFront_point_a (m : FiveBarParams) (theta1_deg : ℝ) : Point :=
  servo1_pos + pol2cart m.l1 (radians theta1_deg + m.offset_t1)

/-- The elbow point B of the front five-bar (point_b in forward_kinematics). -/
def fiveBarFront_point_b (m : FiveBarParams) (theta2_deg : ℝ) : Point :=
  servo2_pos + pol2cart m.l2 (radians theta2_deg + m.offset_t2)

/-- FiveBarFrontLeg.forward_kinematics (same modelling convention). -/
def fiveBarFront_forward_kinematics (m : FiveBarParams)
    (theta1_deg theta2_deg : ℝ) : Option (Point × FiveBarJoints) :=
  let point_a := fiveBarFront_point_a m theta1_deg
  let point_b := fiveBarFront_point_b m theta2_deg
  match get_circle_intersection point_a m.l4 point_b m.l3 (-1) with
  | none => none
  | some point_c =>
    let vec_ca := point_c - point_a
    let norm := vnorm vec_ca
    if norm < 1e-6 then none
    else
      let unit_vector : Point := (vec_ca.1 / norm, vec_ca.2 / norm)
      let point_foot : Point :=
        (point_c.1 + unit_vector.1 * m.l5, point_c.2 + unit_vector.2 * m.l5)
      some (point_foot,
        ⟨servo1_pos, servo2_pos, point_a, point_b, point_c, point_foot⟩)

/-- Link lengths and offsets of the pantograph leg. -/
structure PantographParams where
  l_thigh : ℝ
  l_crank : ℝ
  l_shin : ℝ
  offset_t1 : ℝ
  offset_t2 : ℝ

/-- The joint dictionary produced by pantograph forward kinematics. -/
structure PantographJoints where
  S1 : Point
  S2 : Point
  Knee : Point
  CrankTip : Point
  Mount : Point
  Foot : Point
  ThighConnect : Point

/-- PantographLeg.forward_kinematics.  Note the failure guard is norm == 0
(not the five-bar guard norm < 1e-6). -/
def pantograph_forward_kinematics (m : PantographParams)
    (theta1_deg theta2_deg : ℝ) : Option (Point × PantographJoints) :=
  let theta1 := radians theta1_deg + m.offset_t1
  let theta2 := radians theta2_deg + m.offset_t2
  let vec_thigh := pol2cart m.l_thigh theta1
  let point_knee := servo2_pos + vec_thigh
  let point_thigh_connect := servo2_pos + pol2cart 35 theta1
  let vec_crank := pol2cart m.l_crank theta2
  let point_crank := servo2_pos + vec_crank
  let point_mount := point_crank + vec_thigh
  let vec_shin_dir := point_mount - point_knee
  let norm := vnorm vec_shin_dir
  if norm = 0 then none
  else
    let unit_shin : Point := (vec_shin_dir.1 / norm, vec_shin_dir.2 / norm)
    let point_foot : Point :=
      (point_knee.1 + unit_shin.1 * m.l_shin, point_knee.2 + unit_shin.2 * m.l_shin)
    some (point_foot,
      ⟨servo1_pos, servo2_pos, point_knee, point_crank, point_mount,
        point_foot, point_thigh_connect⟩)

/-- Link lengths and offsets of the serial leg. -/
structure SerialParams where
  l1 : ℝ
  l2 : ℝ
  offset_t1 : ℝ
  offset_t2 : ℝ

/-- The joint dictionary produced by serial forward kinematics. -/
structure SerialJoints where
  Base : Point
  Knee : Point
  Foot : Point

/-- SerialLeg.forward_kinematics: always succeeds. -/
def serial_forward_kinematics (m : SerialParams)
    (theta1_deg theta2_deg : ℝ) : Option (Point × SerialJoints) :=
  let theta1 := radians theta1_deg + m.offset_t1
  let theta2 := radians theta2_deg + m.offset_t2
  let point_knee := base_pos + pol2cart m.l1 theta1
  let point_foot := point_knee + pol2cart m.l2 (theta1 - theta2)
  some (point_foot, ⟨base_pos, point_knee, point_foot⟩)

/-- The _hits_servo helper duplicated verbatim in both five-bar classes (and
defined, but never called, in PantographLeg): a segment hits a servo when
neither endpoint lies within 1e-3 of the servo and the point-segment distance
is below the collision threshold. -/
def hits_servo (segment : Point × Point) (servo_pos : Point) : Bool :=
  if vnorm (segment.1 - servo_pos) < 1e-3 ∨ vnorm (segment.2 - servo_pos) < 1e-3
  then false
  else decide (dist_point_segment servo_pos segment.1 segment.2 <
    collision_threshold)

/-- FiveBarRearLeg.check_collisions. -/
def fiveBarRear_check_collisions (j : FiveBarJoints) : Bool :=
  let seg_s1_a := (j.S1, j.A)
  let seg_s2_c := (j.S2, j.C)
  let seg_a_b := (j.A, j.B)
  let seg_b_c := (j.B, j.C)
  let seg_c_foot := (j.C, j.Foot)
  let segments := [seg_s1_a, seg_s2_c, seg_a_b, seg_b_c, seg_c_foot]
  let servos := [j.S1, j.S2]
  (segments.any fun seg => servos.any fun servo => hits_servo seg servo) ||
    decide (min_dist_segments seg_s1_a seg_s2_c < collision_threshold) ||
    decide (min_dist_segments seg_s1_a seg_b_c < collision_threshold) ||
    decide (min_dist_segments seg_s2_c seg_a_b < collision_threshold)

/-- FiveBarFrontLeg.check_collisions. -/
def fiveBarFront_check_collisions (j : FiveBarJoints) : Bool :=
  let seg_s1_a := (j.S1, j.A)
  let seg_s2_b := (j.S2, j.B)
  let seg_a_c := (j.A, j.C)
  let seg_b_c := (j.B, j.C)
  let seg_c_foot := (j.C, j.Foot)
  let segments := [seg_s1_a, seg_s2_b, seg_a_c, seg_b_c, seg_c_foot]
  let servos := [j.S1, j.S2]
  (segments.any fun seg => servos.any fun servo => hits_servo seg servo) ||
    decide (min_dist_segments seg_s1_a seg_s2_b < collision_threshold) ||
    decide (min_dist_segments seg_s1_a seg_b_c < collision_threshold) ||
    decide (min_dist_segments seg_s2_b seg_a_c < collision_threshold)

/-- PantographLeg.check_collisions: angular travel limits only; no segment
or servo test appears in its body. -/
def pantograph_check_collisions (j : PantographJoints) : Bool :=
  let vec_thigh := j.Knee - j.S2
  let vec_crank := j.CrankTip - j.S2
  let ang_s1 := degrees (arctan2 vec_thigh.2 vec_thigh.1)
  let ang_s2 := degrees (arctan2 vec_crank.2 vec_crank.1)
  if ang_s1 < 80 then true
  else if ang_s1 - ang_s2 > 170 then true
  else if ang_s2 > ang_s1 - 10 then true
  else false

/-- SerialLeg.check_collisions: only the foot-to-base distance. -/
def serial_check_collisions (j : SerialJoints) : Bool :=
  if vnorm (j.Foot - j.Base) < collision_threshold then true else false

/-- FiveBarRearLeg.update_params: the Python method assigns self.l1..self.l5
from the mapping in a fixed key order and raises KeyError at the first
missing key, leaving the fields assigned so far overwritten.  Modelled as the
resulting state paired with the missing key, if any. -/
def fiveBarRear_update_params (s : FiveBarParams)
    (params : String → Option ℝ) : FiveBarParams × Option String :=
  match params ("L1 (S1->A)") with
  | none => (s, some ("L1 (S1->A)"))
  | some v1 =>
    match params ("L2 (A->B)") with
    | none => ({ s with l1 := v1 }, some ("L2 (A->B)"))
    | some v2 =>
      match params ("L3 (S2->C)") with
      | none => ({ s with l1 := v1, l2 := v2 }, some ("L3 (S2->C)"))
      | some v3 =>
        match params ("L4 (B->C)") with
        | none => ({ s with l1 := v1, l2 := v2, l3 := v3 }, some ("L4 (B->C)"))
        | some v4 =>
          match params ("L5 (Ext. C)") with
          | none =>
            ({ s with l1 := v1, l2 := v2, l3 := v3, l4 := v4 },
              some ("L5 (Ext. C)"))
          | some v5 =>
            ({ s with l1 := v1, l2 := v2, l3 := v3, l4 := v4, l5 := v5 }, none)

/-- np.linspace(0, 180, n): n evenly spaced samples including both endpoints
(numpy returns [0] for n = 1 and the empty array for n = 0). -/
def linspace (n : ℕ) : List ℝ :=
  if n = 0 then []
  else if n = 1 then [0]
  else (List.range n).map fun i : ℕ => (i : ℝ) * (180 / ((n : ℝ) - 1))

/-- The (theta1, theta2) combinations scanned by LegModel.get_workspace: the
nested loop over scan_range and scan_range. -/
def scan_pairs (n : ℕ) : List (ℝ × ℝ) :=
  (linspace n).bind fun theta1 => (linspace n).map fun theta2 => (theta1, theta2)

/-- LegModel.get_workspace's point-cloud accumulation, generic over the
variant's forward kinematics and collision check (the abstract interface
methods): the end effector is kept when kinematics succeeds and the collision
check returns false. -/
def get_workspace_points {J : Type} (fk : ℝ → ℝ → Option (Point × J))
    (check : J → Bool) (resolution : ℕ) : List Point :=
  (scan_pairs resolution).filterMap fun p =>
    match fk p.1 p.2 with
    | some (e, j) => if check j then none else some e
    | none => none

/-- Heron area of the triangle at the index triple sx of the point cloud, as
calculate_concave_hull computes it (side lengths by np.linalg.norm, clamped
under the square root). -/
def tri_area (points : List Point) (sx : ℕ × ℕ × ℕ) : ℝ :=
  let pa := points.getD sx.1 (0, 0)
  let pb := points.getD sx.2.1 (0, 0)
  let pc := points.getD sx.2.2 (0, 0)
  let a := vnorm (pa - pb)
  let b := vnorm (pb - pc)
  let c := vnorm (pc - pa)
  let s := (a + b + c) / 2
  Real.sqrt (max 0 (s * (s - a) * (s - b) * (s - c)))

/-- Circumradius a b c / (4 area) of the triangle at sx. -/
def tri_circum_r (points : List Point) (sx : ℕ × ℕ × ℕ) : ℝ :=
  let pa := points.getD sx.1 (0, 0)
  let pb := points.getD sx.2.1 (0, 0)
  let pc := points.getD sx.2.2 (0, 0)
  let a := vnorm (pa - pb)
  let b := vnorm (pb - pc)
  let c := vnorm (pc - pa)
  (a * b * c) / (4 * tri_area points sx)

/-- tuple(sorted((i, j))): the unordered vertex-index pair keying the
boundary-edge set. -/
def edge_key (i j : ℕ) : ℕ × ℕ := (min i j, max i j)

/-- The three edges (simplex[i], simplex[(i+1) % 3]) of a simplex, as
unordered keys. -/
def simplex_edges (sx : ℕ × ℕ × ℕ) : List (ℕ × ℕ) :=
  [edge_key sx.1 sx.2.1, edge_key sx.2.1 sx.2.2, edge_key sx.2.2 sx.1]

/-- One toggle of the boundary-edge set: remove the edge if present,
otherwise add it. -/
def toggle_edge (bd : Finset (ℕ × ℕ)) (e : ℕ × ℕ) : Finset (ℕ × ℕ) :=
  if e ∈ bd then bd.erase e else insert e bd

/-- The triangle loop of calculate_concave_hull: accumulate total_area and
the toggling boundary-edge set over the Delaunay simplices. -/
def hull_fold (points : List Point) (alpha : ℝ) :
    List (ℕ × ℕ × ℕ) → ℝ × Finset (ℕ × ℕ) → ℝ × Finset (ℕ × ℕ)
  | [], acc => acc
  | sx :: rest, (area, bd) =>
    if tri_area points sx < 1e-5 then hull_fold points alpha rest (area, bd)
    else if tri_circum_r points sx < 1 / alpha then
      hull_fold points alpha rest
        (area + tri_area points sx, (simplex_edges sx).foldl toggle_edge bd)
    else hull_fold points alpha rest (area, bd)

/-- calculate_concave_hull from utils.py.  The scipy Delaunay triangulation
is not part of this repository; its output is modelled as the input list of
index triples. -/
def calculate_concave_hull (points : List Point)
    (simplices : List (ℕ × ℕ × ℕ)) (alpha : ℝ) : ℝ × List (Point × Point) :=
  if points.length < 4 then (0, [])
  else
    let res := hull_fold points alpha simplices (0, ∅)
    (res.1, res.2.toList.map
      fun e => (points.getD e.1 (0, 0), points.getD e.2 (0, 0)))

/-- A triangle is retained when its Heron area is at least 1e-5 and its
circumradius is strictly below 1 / alpha. -/
def retained (points : List Point) (alpha : ℝ) (sx : ℕ × ℕ × ℕ) : Prop :=
  1e-5 ≤ tri_area points sx ∧ tri_circum_r points sx < 1 / alpha

/-- Python max() over a list (meaningful for nonempty lists; the code only
calls it on nonempty lists). -/
def list_max (l : List ℝ) : ℝ := l.foldl max l.headI

/-- Python min() over a list. -/
def list_min (l : List ℝ) : ℝ := l.foldl min l.headI

/-- get_scan_limits_at_y from utils.py: the nearest boundary-crossing x
values left and right of x = 0 at height y, or (0, 0) when either side is
open. -/
def get_scan_limits_at_y (y : ℝ) (hull_lines : List (Point × Point)) :
    ℝ × ℝ :=
  let intersections := hull_lines.filterMap fun pq =>
    if (pq.1.2 ≤ y ∧ y ≤ pq.2.2) ∨ (pq.2.2 ≤ y ∧ y ≤ pq.1.2) then
      if |pq.2.2 - pq.1.2| < 1e-5 then none
      else some (pq.1.1 + ((y - pq.1.2) / (pq.2.2 - pq.1.2)) *
        (pq.2.1 - pq.1.1))
    else none
  if intersections = [] then (0, 0)
  else
    let neg_x := intersections.filter fun x => decide (x < -0.1)
    let pos_x := intersections.filter fun x => decide (x > 0.1)
    if neg_x = [] ∨ pos_x = [] then (0, 0)
    else (list_max neg_x, list_min pos_x)

/-- The y values of all boundary segment endpoints (the ys list of
calculate_max_centered_ellipse). -/
def hull_ys (hull : List (Point × Point)) : List ℝ :=
  hull.bind fun line => [line.1.2, line.2.2]

/-- min_y of the profile scan. -/
def hull_min_y (hull : List (Point × Point)) : ℝ := list_min (hull_ys hull)

/-- max_y of the profile scan. -/
def hull_max_y (hull : List (Point × Point)) : ℝ := list_max (hull_ys hull)

/-- n_points = len(np.arange(min_y, max_y, 1.0)). -/
def hull_n_points (hull : List (Point × Point)) : ℕ :=
  (Int.ceil (hull_max_y hull - hull_min_y hull)).toNat

/-- profile_radius[i]: the symmetric safe half-width at scan height
min_y + i (1 mm resolution): 0 when that row is open, otherwise the smaller
of the two wall distances. -/
def profile_radius (hull : List (Point × Point)) (min_y : ℝ) (i : ℕ) : ℝ :=
  let lr := get_scan_limits_at_y (min_y + (i : ℝ) * 1.0) hull
  if lr.1 = 0 ∧ lr.2 = 0 then 0 else min |lr.1| |lr.2|

/-- Python int(): truncation toward zero. -/
def pytrunc (x : ℝ) : ℤ := if 0 ≤ x then ⌊x⌋ else ⌈x⌉

/-- Required half-width of the candidate ellipse of width w at vertical
offset dy: (w/2) sqrt(max 0 (1 - (dy/(h/2))^2)) with h = w * aspect. -/
def req_half_width (aspect w dy : ℝ) : ℝ :=
  let h_cand := w * aspect
  let half_h := h_cand / 2
  let term := 1 - (dy / half_h) ^ 2
  (w / 2) * Real.sqrt (if term < 0 then 0 else term)

/-- Acceptance condition of a candidate (center_y, w) in the width loop:
the index range the ellipse covers lies inside the profile array and no
covered row collides (required half-width at most the row's profile
radius). -/
def width_ok (hull : List (Point × Point)) (min_y : ℝ) (n : ℕ)
    (aspect center_y w : ℝ) : Prop :=
  let half_h := (w * aspect) / 2
  let idx_start := pytrunc ((center_y - half_h - min_y) / 1.0)
  let idx_end := pytrunc ((center_y + half_h - min_y) / 1.0)
  0 ≤ idx_start ∧ idx_end < (n : ℤ) ∧
  ∀ j : ℕ, idx_start ≤ (j : ℤ) → (j : ℤ) ≤ idx_end →
    req_half_width aspect w (|min_y + (j : ℝ) * 1.0 - center_y|) ≤
      profile_radius hull min_y j

/-- The inner width loop: first width not pruned by best and accepted; 0
when the loop prunes (w_cand <= best_width breaks with valid_w = 0) or
exhausts. -/
def try_widths (hull : List (Point × Point)) (min_y : ℝ) (n : ℕ)
    (aspect center_y best : ℝ) : List ℝ → ℝ
  | [] => 0
  | w :: rest =>
    if w ≤ best then 0
    else if width_ok hull min_y n aspect center_y w then w
    else try_widths hull min_y n aspect center_y best rest

/-- np.arange(current_w, 0, -2.0): the decreasing candidate widths. -/
def test_widths (current_w : ℝ) : List ℝ :=
  (List.range (Int.ceil (current_w / 2)).toNat).map
    fun k : ℕ => current_w - 2 * (k : ℝ)

/-- The outer center loop over (i, center_y) pairs, carrying
(best_width, best_y). -/
def search_centers (hull : List (Point × Point)) (min_y : ℝ) (n : ℕ)
    (aspect : ℝ) : List (ℕ × ℝ) → ℝ × ℝ → ℝ × ℝ
  | [], acc => acc
  | (i, center_y) :: rest, (best_width, best_y) =>
    if profile_radius hull min_y i < 1.0 then
      search_centers hull min_y n aspect rest (best_width, best_y)
    else
      let valid_w := try_widths hull min_y n aspect center_y best_width
        (test_widths (profile_radius hull min_y i * 2.0))
      if valid_w > best_width then
        search_centers hull min_y n aspect rest (valid_w, center_y)
      else search_centers hull min_y n aspect rest (best_width, best_y)

/-- enumerate(scan_ys): the candidate centers. -/
def scan_centers (hull : List (Point × Point)) : List (ℕ × ℝ) :=
  (List.range (hull_n_points hull)).map
    fun i : ℕ => (i, hull_min_y hull + (i : ℝ) * 1.0)

/-- calculate_max_centered_ellipse from utils.py: profile sweep plus nested
greedy search; returns (best_y, best_width, best_width * aspect). -/
def calculate_max_centered_ellipse (hull_lines : List (Point × Point))
    (aspect : ℝ) : ℝ × ℝ × ℝ :=
  if hull_lines = [] then (0, 0, 0)
  else if hull_ys hull_lines = [] then (0, 0, 0)
  else
    let res := search_centers hull_lines (hull_min_y hull_lines)
      (hull_n_points hull_lines) aspect (scan_centers hull_lines) (0, 0)
    (res.2, res.1, res.1 * aspect)

/-- C3: get_circle_intersection returns none exactly on the guard condition
d > r1 + r2 or d < |r1 - r2| or d = 0, and returns a point in every other
case. -/
theorem get_circle_intersection_none_iff (p1 : Point) (r1 : ℝ) (p2 : Point)
    (r2 : ℝ) (chirality : ℤ) :
    (get_circle_intersection p1 r1 p2 r2 chirality = none ↔
      (center_dist p1 p2 > r1 + r2 ∨ center_dist p1 p2 < |r1 - r2| ∨
        center_dist p1 p2 = 0)) ∧
    (¬ (center_dist p1 p2 > r1 + r2 ∨ center_dist p1 p2 < |r1 - r2| ∨
        center_dist p1 p2 = 0) →
      ∃ q, get_circle_intersection p1 r1 p2 r2 chirality = some q) := by
  constructor
  · unfold get_circle_intersection center_dist
    constructor
    · intro hnone
      by_contra hc
      rw [if_neg hc] at hnone
      by_cases hchi : chirality = 1
      · rw [if_pos hchi] at hnone
        exact Option.noConfusion hnone
      · rw [if_neg hchi] at hnone
        exact Option.noConfusion hnone
    · intro hc
      rw [if_pos hc]
  · intro hc
    unfold get_circle_intersection
    unfold center_dist at hc
    rw [if_neg hc]
    by_cases hchi : chirality = 1
    · rw [if_pos hchi]
      exact ⟨_, rfl⟩
    · rw [if_neg hchi]
      exact ⟨_, rfl⟩

lemma gci_feasible (p1 : Point) (r1 : ℝ) (p2 : Point) (r2 : ℝ) (chirality : ℤ)
    (hguard : ¬ (Real.sqrt ((p1.1 - p2.1) ^ 2 + (p1.2 - p2.2) ^ 2) > r1 + r2 ∨
      Real.sqrt ((p1.1 - p2.1) ^ 2 + (p1.2 - p2.2) ^ 2) < |r1 - r2| ∨
      Real.sqrt ((p1.1 - p2.1) ^ 2 + (p1.2 - p2.2) ^ 2) = 0)) :
    get_circle_intersection p1 r1 p2 r2 chirality =
      some (circle_sol p1 r1 p2 r2 chirality) := by
  simp only [get_circle_intersection, circle_sol]
  rw [if_neg hguard]
  split_ifs <;> rfl

/-- C4: on circles whose centre distance d satisfies |r1 - r2| < d < r1 + r2
and d > 0, the chirality 1 and chirality -1 results of
get_circle_intersection are reflections of each other across the line through
the two centres. -/
theorem get_circle_intersection_chirality_reflection (p1 p2 : Point)
    (r1 r2 : ℝ) (h1 : |r1 - r2| < center_dist p1 p2)
    (h2 : center_dist p1 p2 < r1 + r2) (h3 : 0 < center_dist p1 p2) :
    ∃ q1 q2, get_circle_intersection p1 r1 p2 r2 1 = some q1 ∧
      get_circle_intersection p1 r1 p2 r2 (-1) = some q2 ∧
      q2 = reflect_across_line p1 p2 q1 := by
  unfold center_dist at h1 h2 h3
  have hdne : Real.sqrt ((p1.1 - p2.1) ^ 2 + (p1.2 - p2.2) ^ 2) ≠ 0 :=
    ne_of_gt h3
  have hguard : ¬ (Real.sqrt ((p1.1 - p2.1) ^ 2 + (p1.2 - p2.2) ^ 2) > r1 + r2 ∨
      Real.sqrt ((p1.1 - p2.1) ^ 2 + (p1.2 - p2.2) ^ 2) < |r1 - r2| ∨
      Real.sqrt ((p1.1 - p2.1) ^ 2 + (p1.2 - p2.2) ^ 2) = 0) := by
    push_neg
    exact ⟨le_of_lt h2, le_of_lt h1, hdne⟩
  have hd2 : (p1.1 - p2.1) ^ 2 + (p1.2 - p2.2) ^ 2 ≠ 0 := by
    intro h0
    rw [h0, Real.sqrt_zero] at hdne
    exact hdne rfl
  have hv : (p2.1 - p1.1) ^ 2 + (p2.2 - p1.2) ^ 2 ≠ 0 := by
    intro h0
    apply hd2
    nlinarith [h0]
  refine ⟨circle_sol p1 r1 p2 r2 1, circle_sol p1 r1 p2 r2 (-1),
    gci_feasible p1 r1 p2 r2 1 hguard, gci_feasible p1 r1 p2 r2 (-1) hguard, ?_⟩
  simp only [circle_sol, reflect_across_line]
  norm_num
  constructor
  · field_simp
    ring
  · field_simp
    ring

/-- Witness for C4 at the concrete circles centred (0,0) and (8,0) with radii
5 and 5. -/
theorem get_circle_intersection_chirality_reflection_witness :
    ∃ q1 q2,
      get_circle_intersection ((0 : ℝ), (0 : ℝ)) 5 ((8 : ℝ), (0 : ℝ)) 5 1 =
        some q1 ∧
      get_circle_intersection ((0 : ℝ), (0 : ℝ)) 5 ((8 : ℝ), (0 : ℝ)) 5 (-1) =
        some q2 ∧
      q2 = reflect_across_line ((0 : ℝ), (0 : ℝ)) ((8 : ℝ), (0 : ℝ)) q1 := by
  have hcd : center_dist ((0 : ℝ), (0 : ℝ)) ((8 : ℝ), (0 : ℝ)) = 8 := by
    unfold center_dist
    rw [show ((0 : ℝ) - 8) ^ 2 + ((0 : ℝ) - 0) ^ 2 = 8 ^ 2 by norm_num]
    exact Real.sqrt_sq (by norm_num)
  exact get_circle_intersection_chirality_reflection (0, 0) (8, 0) 5 5
    (by rw [hcd]; norm_num) (by rw [hcd]; norm_num) (by rw [hcd]; norm_num)

lemma ccw_of_line (a b c : ℝ) (P Q R : Point) (hab : a ≠ 0 ∨ b ≠ 0)
    (hP : a * P.1 + b * P.2 = c) (hQ : a * Q.1 + b * Q.2 = c)
    (hR : a * R.1 + b * R.2 = c) : ccw P Q R = false := by
  have e1 : a * (Q.1 - P.1) + b * (Q.2 - P.2) = 0 := by linear_combination hQ - hP
  have e2 : a * (R.1 - P.1) + b * (R.2 - P.2) = 0 := by linear_combination hR - hP
  have key : (R.2 - P.2) * (Q.1 - P.1) = (Q.2 - P.2) * (R.1 - P.1) := by
    rcases hab with ha | hb
    · apply mul_left_cancel₀ ha
      linear_combination (R.2 - P.2) * e1 - (Q.2 - P.2) * e2
    · apply mul_left_cancel₀ hb
      linear_combination (Q.1 - P.1) * e2 - (R.1 - P.1) * e1
  simp [ccw, key]

/-- C8: on four exactly collinear points (all on the line a x + b y = c), the
segment intersection test intersect A B C D returns false, because every
orientation comparison in ccw is strict. -/
theorem intersect_collinear_false (A B C D : Point) (a b c : ℝ)
    (hab : a ≠ 0 ∨ b ≠ 0)
    (hA : a * A.1 + b * A.2 = c) (hB : a * B.1 + b * B.2 = c)
    (hC : a * C.1 + b * C.2 = c) (hD : a * D.1 + b * D.2 = c) :
    intersect A B C D = false := by
  have h1 : ccw A C D = false := ccw_of_line a b c A C D hab hA hC hD
  have h2 : ccw B C D = false := ccw_of_line a b c B C D hab hB hC hD
  simp [intersect, h1, h2]

/-- Witness for C8: the overlapping collinear segments (0,0)-(2,0) and
(1,0)-(3,0) on the x axis do not register as intersecting. -/
theorem intersect_collinear_false_witness :
    intersect ((0 : ℝ), (0 : ℝ)) ((2 : ℝ), (0 : ℝ)) ((1 : ℝ), (0 : ℝ))
      ((3 : ℝ), (0 : ℝ)) = false :=
  intersect_collinear_false (0, 0) (2, 0) (1, 0) (3, 0) 0 1 0
    (Or.inr one_ne_zero) (by norm_num) (by norm_num) (by norm_num)
    (by norm_num)

/-- C9: update_params on the rear five-bar reads the mapping in the fixed key
order L1, L2, L3, L4, L5; when L1 and L2 are present but L3 is missing, the
call fails loudly reporting the L3 key, yet l1 and l2 have already been
overwritten while l3, l4, l5 keep their previous values. -/
theorem fiveBarRear_update_params_missing_key (s : FiveBarParams)
    (params : String → Option ℝ) (v1 v2 : ℝ)
    (h1 : params ("L1 (S1->A)") = some v1)
    (h2 : params ("L2 (A->B)") = some v2)
    (h3 : params ("L3 (S2->C)") = none) :
    fiveBarRear_update_params s params =
      ({ s with l1 := v1, l2 := v2 }, some ("L3 (S2->C)")) := by
  unfold fiveBarRear_update_params
  rw [h1, h2, h3]

/-- Witness for C9 at a concrete state and mapping holding only L1 and L2. -/
theorem fiveBarRear_update_params_missing_key_witness :
    fiveBarRear_update_params ⟨45, 45, 50, 45, 95, 0, 0⟩
      (fun k => if k = "L1 (S1->A)" then some 1
        else if k = "L2 (A->B)" then some 2 else none) =
      (⟨1, 2, 50, 45, 95, 0, 0⟩, some ("L3 (S2->C)")) :=
  fiveBarRear_update_params_missing_key ⟨45, 45, 50, 45, 95, 0, 0⟩
    (fun k => if k = "L1 (S1->A)" then some 1
      else if k = "L2 (A->B)" then some 2 else none) 1 2
    (by simp) (by simp) (by simp)

lemma pantograph_mount_sub_knee (m : PantographParams) (t1 t2 : ℝ) :
    servo2_pos + pol2cart m.l_crank (radians t2 + m.offset_t2) +
        pol2cart m.l_thigh (radians t1 + m.offset_t1) -
      (servo2_pos + pol2cart m.l_thigh (radians t1 + m.offset_t1)) =
      pol2cart m.l_crank (radians t2 + m.offset_t2) := by
  abel

lemma vnorm_pol2cart (l phi : ℝ) : vnorm (pol2cart l phi) = |l| := by
  unfold vnorm pol2cart
  rw [show (l * Real.cos phi) ^ 2 + (l * Real.sin phi) ^ 2 =
    l ^ 2 * ((Real.sin phi) ^ 2 + (Real.cos phi) ^ 2) by ring]
  rw [Real.sin_sq_add_cos_sq, mul_one, Real.sqrt_sq_eq_abs]

lemma pantograph_none_iff (m : PantographParams) (t1 t2 : ℝ) :
    pantograph_forward_kinematics m t1 t2 = none ↔ m.l_crank = 0 := by
  have hdir := pantograph_mount_sub_knee m t1 t2
  have hnorm := vnorm_pol2cart m.l_crank (radians t2 + m.offset_t2)
  simp only [pantograph_forward_kinematics]
  rw [hdir, hnorm]
  constructor
  · intro hnone
    by_cases hl : |m.l_crank| = 0
    · exact abs_eq_zero.mp hl
    · rw [if_neg hl] at hnone
      exact absurd hnone (Option.some_ne_none _)
  · intro hl
    rw [if_pos (by rw [hl, abs_zero])]

/-- C10: in pantograph forward kinematics the shin direction vector
Mount - Knee is exactly the crank vector pol2cart(l_crank, theta2), the foot
is Knee plus the unit crank vector scaled by l_shin, and the zero-norm
failure branch fires exactly when l_crank = 0. -/
theorem pantograph_shin_direction (m : PantographParams) (t1 t2 : ℝ) :
    (pantograph_forward_kinematics m t1 t2 = none ↔ m.l_crank = 0) ∧
    (∀ foot j, pantograph_forward_kinematics m t1 t2 = some (foot, j) →
      j.Mount - j.Knee = pol2cart m.l_crank (radians t2 + m.offset_t2) ∧
      j.Foot = (j.Knee.1 +
          (pol2cart m.l_crank (radians t2 + m.offset_t2)).1 /
            vnorm (pol2cart m.l_crank (radians t2 + m.offset_t2)) * m.l_shin,
        j.Knee.2 +
          (pol2cart m.l_crank (radians t2 + m.offset_t2)).2 /
            vnorm (pol2cart m.l_crank (radians t2 + m.offset_t2)) * m.l_shin)) := by
  have hdir := pantograph_mount_sub_knee m t1 t2
  have hnorm := vnorm_pol2cart m.l_crank (radians t2 + m.offset_t2)
  constructor
  · exact pantograph_none_iff m t1 t2
  · intro foot j hsome
    simp only [pantograph_forward_kinematics] at hsome
    rw [hdir, hnorm] at hsome
    by_cases hl : |m.l_crank| = 0
    · rw [if_pos hl] at hsome
      exact absurd hsome (Option.noConfusion)
    · rw [if_neg hl] at hsome
      have hj := (Prod.mk.injEq _ _ _ _).mp (Option.some.inj hsome)
      obtain ⟨hfoot, hjoints⟩ := hj
      subst hjoints
      refine ⟨hdir, ?_⟩
      rw [← hnorm]

lemma pantograph_fk_of_crank_ne (m : PantographParams) (t1 t2 : ℝ)
    (hl : m.l_crank ≠ 0) :
    ∃ foot j, pantograph_forward_kinematics m t1 t2 = some (foot, j) ∧
      j.Mount - j.Knee = pol2cart m.l_crank (radians t2 + m.offset_t2) := by
  have hdir := pantograph_mount_sub_knee m t1 t2
  have hnorm := vnorm_pol2cart m.l_crank (radians t2 + m.offset_t2)
  simp only [pantograph_forward_kinematics]
  rw [hdir, hnorm, if_neg (by simpa using hl)]
  exact ⟨_, _, rfl, hdir⟩

/-- Counterexample to C1 as stated: with crank length 5e-7 the pantograph
shin direction vector has norm 5e-7 < 1e-6, yet forward kinematics still
returns a foot point and a joint set (its guard is norm == 0, not
norm < 1e-6). -/
theorem pantograph_small_norm_still_some :
    ∃ foot j,
      pantograph_forward_kinematics ⟨95, 5e-7, 95, 0, 0⟩ 90 0 = some (foot, j) ∧
      vnorm (j.Mount - j.Knee) < 1e-6 := by
  obtain ⟨foot, j, hfk, hdir⟩ :=
    pantograph_fk_of_crank_ne ⟨95, 5e-7, 95, 0, 0⟩ 90 0 (by norm_num)
  refine ⟨foot, j, hfk, ?_⟩
  rw [hdir, vnorm_pol2cart]
  show |(5e-7 : ℝ)| < 1e-6
  rw [abs_of_pos (by norm_num)]
  norm_num

/-- C1 amended: each five-bar variant returns the empty result exactly when
the closure circle intersection is infeasible or the foot direction vector
has norm below 1e-6; the pantograph returns the empty result exactly when
its crank length is zero (its guard tests norm == 0); the serial leg always
returns a foot point and a joint set.  No case is an error. -/
theorem forward_kinematics_none_characterization :
    (∀ (m : FiveBarParams) (t1 t2 : ℝ),
      fiveBarRear_forward_kinematics m t1 t2 = none ↔
        (get_circle_intersection (fiveBarRear_point_a m t1) m.l2
            (fiveBarRear_point_c m t2) m.l4 (-1) = none ∨
          ∃ b, get_circle_intersection (fiveBarRear_point_a m t1) m.l2
              (fiveBarRear_point_c m t2) m.l4 (-1) = some b ∧
            vnorm (fiveBarRear_point_c m t2 - b) < 1e-6)) ∧
    (∀ (m : FiveBarParams) (t1 t2 : ℝ),
      fiveBarFront_forward_kinematics m t1 t2 = none ↔
        (get_circle_intersection (fiveBarFront_point_a m t1) m.l4
            (fiveBarFront_point_b m t2) m.l3 (-1) = none ∨
          ∃ c, get_circle_intersection (fiveBarFront_point_a m t1) m.l4
              (fiveBarFront_point_b m t2) m.l3 (-1) = some c ∧
            vnorm (c - fiveBarFront_point_a m t1) < 1e-6)) ∧
    (∀ (m : PantographParams) (t1 t2 : ℝ),
      pantograph_forward_kinematics m t1 t2 = none ↔ m.l_crank = 0) ∧
    (∀ (m : SerialParams) (t1 t2 : ℝ),
      ∃ foot j, serial_forward_kinematics m t1 t2 = some (foot, j)) := by
  refine ⟨?_, ?_, ?_, ?_⟩
  · intro m t1 t2
    rcases hgci : get_circle_intersection (fiveBarRear_point_a m t1) m.l2
        (fiveBarRear_point_c m t2) m.l4 (-1) with _ | b
    · simp [fiveBarRear_forward_kinematics, hgci]
    · simp only [fiveBarRear_forward_kinematics, hgci]
      by_cases hn : vnorm (fiveBarRear_point_c m t2 - b) < 1e-6
      · simp [hn]
      · simp [hn]
  · intro m t1 t2
    rcases hgci : get_circle_intersection (fiveBarFront_point_a m t1) m.l4
        (fiveBarFront_point_b m t2) m.l3 (-1) with _ | c
    · simp [fiveBarFront_forward_kinematics, hgci]
    · simp only [fiveBarFront_forward_kinematics, hgci]
      by_cases hn : vnorm (c - fiveBarFront_point_a m t1) < 1e-6
      · simp [hn]
      · simp [hn]
  · intro m t1 t2
    exact pantograph_none_iff m t1 t2
  · intro m t1 t2
    exact ⟨_, _, rfl⟩

lemma vnorm_eval (x y r : ℝ) (hr : 0 ≤ r) (h : x ^ 2 + y ^ 2 = r ^ 2) :
    vnorm (x, y) = r := by
  unfold vnorm
  simp only
  rw [h, Real.sqrt_sq hr]

/-- Counterexample to C2 as stated: at serial angles (90, 180) with the
default lengths the Knee-Foot rigid segment passes through the Base servo
pivot (point-segment distance 0 < threshold, no endpoint within 1e-3 of the
pivot), yet check_collisions returns false: the serial variant checks only
the foot-to-base distance, not every segment against the pivots. -/
theorem serial_segment_near_base_not_flagged :
    ∃ foot j,
      serial_forward_kinematics ⟨50, 95, 0, 0⟩ 90 180 = some (foot, j) ∧
      serial_check_collisions j = false ∧
      dist_point_segment j.Base j.Knee j.Foot < collision_threshold ∧
      ¬ (vnorm (j.Knee - j.Base) < 1e-3 ∨ vnorm (j.Foot - j.Base) < 1e-3) := by
  have ha1 : radians 90 + (0 : ℝ) = Real.pi / 2 := by
    unfold radians; ring
  have ha2 : radians 90 + (0 : ℝ) - (radians 180 + (0 : ℝ)) = -(Real.pi / 2) := by
    unfold radians; ring
  have hknee : base_pos + pol2cart 50 (radians 90 + (0 : ℝ)) = ((0 : ℝ), (50 : ℝ)) := by
    rw [ha1]
    unfold base_pos pol2cart
    rw [Real.cos_pi_div_two, Real.sin_pi_div_two, Prod.mk_add_mk]
    norm_num
  have hshin : pol2cart 95 (radians 90 + (0 : ℝ) - (radians 180 + (0 : ℝ))) =
      ((0 : ℝ), (-95 : ℝ)) := by
    rw [ha2]
    unfold pol2cart
    rw [Real.cos_neg, Real.sin_neg, Real.cos_pi_div_two, Real.sin_pi_div_two]
    norm_num
  have hfk : serial_forward_kinematics ⟨50, 95, 0, 0⟩ 90 180 =
      some (((0 : ℝ), (-45 : ℝ)),
        ⟨((0 : ℝ), (0 : ℝ)), ((0 : ℝ), (50 : ℝ)), ((0 : ℝ), (-45 : ℝ))⟩) := by
    simp only [serial_forward_kinematics]
    rw [hknee, hshin, Prod.mk_add_mk]
    simp only [base_pos, Prod.mk.injEq, SerialJoints.mk.injEq, Option.some.injEq]
    norm_num
  refine ⟨_, _, hfk, ?_, ?_, ?_⟩
  · unfold serial_check_collisions
    simp only
    rw [Prod.mk_sub_mk]
    norm_num
    rw [vnorm_eval 0 (-45) 45 (by norm_num) (by norm_num)]
    unfold collision_threshold
    norm_num
  · simp only
    unfold dist_point_segment
    simp only [Prod.mk_sub_mk]
    norm_num
    rw [show (0 : Point) = ((0 : ℝ), (0 : ℝ)) from rfl,
      vnorm_eval 0 0 0 le_rfl (by norm_num)]
    unfold collision_threshold
    norm_num
  · simp only
    rw [Prod.mk_sub_mk, Prod.mk_sub_mk]
    norm_num
    constructor
    · rw [vnorm_eval 0 50 50 (by norm_num) (by norm_num)]
      norm_num
    · rw [vnorm_eval 0 (-45) 45 (by norm_num) (by norm_num)]
      norm_num

lemma hits_servo_eq_true (seg : Point × Point) (sv : Point) :
    hits_servo seg sv = true ↔
      (¬ (vnorm (seg.1 - sv) < 1e-3 ∨ vnorm (seg.2 - sv) < 1e-3) ∧
        dist_point_segment sv seg.1 seg.2 < collision_threshold) := by
  unfold hits_servo
  split_ifs with h
  · simp [h]
  · simp [h]

/-- C2 amended: only the two five-bar variants test every rigid segment of
the linkage against both servo pivots (point-segment distance below the
threshold, skipping a pair when a segment endpoint lies within 1e-3 of that
servo) together with three cross-link clearances; the pantograph check tests
only the three angular travel constraints and the serial check tests only the
foot-to-base distance. -/
theorem check_collisions_characterization :
    (∀ j : FiveBarJoints, fiveBarRear_check_collisions j = true ↔
      ((∃ seg ∈ [(j.S1, j.A), (j.S2, j.C), (j.A, j.B), (j.B, j.C),
          (j.C, j.Foot)], ∃ sv ∈ [j.S1, j.S2],
            ¬ (vnorm (seg.1 - sv) < 1e-3 ∨ vnorm (seg.2 - sv) < 1e-3) ∧
              dist_point_segment sv seg.1 seg.2 < collision_threshold) ∨
        min_dist_segments (j.S1, j.A) (j.S2, j.C) < collision_threshold ∨
        min_dist_segments (j.S1, j.A) (j.B, j.C) < collision_threshold ∨
        min_dist_segments (j.S2, j.C) (j.A, j.B) < collision_threshold)) ∧
    (∀ j : FiveBarJoints, fiveBarFront_check_collisions j = true ↔
      ((∃ seg ∈ [(j.S1, j.A), (j.S2, j.B), (j.A, j.C), (j.B, j.C),
          (j.C, j.Foot)], ∃ sv ∈ [j.S1, j.S2],
            ¬ (vnorm (seg.1 - sv) < 1e-3 ∨ vnorm (seg.2 - sv) < 1e-3) ∧
              dist_point_segment sv seg.1 seg.2 < collision_threshold) ∨
        min_dist_segments (j.S1, j.A) (j.S2, j.B) < collision_threshold ∨
        min_dist_segments (j.S1, j.A) (j.B, j.C) < collision_threshold ∨
        min_dist_segments (j.S2, j.B) (j.A, j.C) < collision_threshold)) ∧
    (∀ j : PantographJoints, pantograph_check_collisions j = true ↔
      (degrees (arctan2 (j.Knee - j.S2).2 (j.Knee - j.S2).1) < 80 ∨
        degrees (arctan2 (j.Knee - j.S2).2 (j.Knee - j.S2).1) -
          degrees (arctan2 (j.CrankTip - j.S2).2 (j.CrankTip - j.S2).1) > 170 ∨
        degrees (arctan2 (j.CrankTip - j.S2).2 (j.CrankTip - j.S2).1) >
          degrees (arctan2 (j.Knee - j.S2).2 (j.Knee - j.S2).1) - 10)) ∧
    (∀ j : SerialJoints, serial_check_collisions j = true ↔
      vnorm (j.Foot - j.Base) < collision_threshold) := by
  refine ⟨?_, ?_, ?_, ?_⟩
  · intro j
    simp [fiveBarRear_check_collisions, List.any_eq_true, hits_servo_eq_true,
      or_assoc]
  · intro j
    simp [fiveBarFront_check_collisions, List.any_eq_true, hits_servo_eq_true,
      or_assoc]
  · intro j
    simp only [pantograph_check_collisions]
    split_ifs with h1 h2 h3
    · exact iff_of_true rfl (Or.inl h1)
    · exact iff_of_true rfl (Or.inr (Or.inl h2))
    · exact iff_of_true rfl (Or.inr (Or.inr h3))
    · refine iff_of_false (by simp) ?_
      rintro (hA | hB | hC)
      · exact h1 hA
      · exact h2 hB
      · exact h3 hC
  · intro j
    unfold serial_check_collisions
    split_ifs with h
    · simp [h]
    · simp [h]

/-- C6: get_workspace evaluates forward kinematics at exactly resolution^2
joint-angle combinations, each angle ranging over resolution evenly spaced
samples from 0 to 180 degrees, and every retained point comes from a
combination where kinematics returned a foot point and the collision check
returned false. -/
theorem get_workspace_scan_properties {J : Type}
    (fk : ℝ → ℝ → Option (Point × J)) (check : J → Bool) (n : ℕ)
    (hn : 2 ≤ n) :
    (scan_pairs n).length = n * n ∧
    (linspace n).length = n ∧
    (∀ i, i < n → (linspace n).getD i 0 = (i : ℝ) * (180 / ((n : ℝ) - 1))) ∧
    (linspace n).getD 0 0 = 0 ∧ (linspace n).getD (n - 1) 0 = 180 ∧
    (∀ p ∈ get_workspace_points fk check n,
      ∃ t1 ∈ linspace n, ∃ t2 ∈ linspace n, ∃ j, fk t1 t2 = some (p, j) ∧
        check j = false) := by
  have hn0 : n ≠ 0 := by omega
  have hn1 : n ≠ 1 := by omega
  have hlin : linspace n = (List.range n).map
      fun i : ℕ => (i : ℝ) * (180 / ((n : ℝ) - 1)) := by
    unfold linspace
    rw [if_neg hn0, if_neg hn1]
  have hlen : (linspace n).length = n := by
    rw [hlin, List.length_map, List.length_range]
  have hget : ∀ i, i < n →
      (linspace n).getD i 0 = (i : ℝ) * (180 / ((n : ℝ) - 1)) := by
    intro i hi
    rw [hlin, List.getD_eq_getElem?_getD, List.getElem?_map,
      List.getElem?_range hi]
    rfl
  have hcast : ((n : ℝ) - 1) ≠ 0 := by
    have : (2 : ℝ) ≤ (n : ℝ) := by exact_mod_cast hn
    linarith
  refine ⟨?_, hlen, hget, ?_, ?_, ?_⟩
  · unfold scan_pairs
    rw [List.length_bind]
    rw [show (List.length ∘ fun theta1 : ℝ =>
        List.map (fun theta2 => (theta1, theta2)) (linspace n)) =
        fun _ : ℝ => n from funext fun t => by simp [hlen]]
    rw [List.map_const', List.sum_replicate, smul_eq_mul, hlen]
  · rw [hget 0 (by omega)]
    norm_num
  · rw [hget (n - 1) (by omega)]
    have : ((n - 1 : ℕ) : ℝ) = (n : ℝ) - 1 := by
      rw [Nat.cast_sub (by omega)]
      norm_num
    rw [this]
    field_simp
  · intro p hp
    unfold get_workspace_points at hp
    obtain ⟨⟨t1, t2⟩, hmem, heq⟩ := List.mem_filterMap.mp hp
    obtain ⟨t1m, ht1, hrest⟩ := List.mem_bind.mp hmem
    obtain ⟨t2m, ht2, hpair⟩ := List.mem_map.mp hrest
    obtain ⟨he1, he2⟩ := Prod.mk.injEq _ _ _ _ ▸ hpair
    rcases hfk : fk t1 t2 with _ | ⟨e, j⟩
    · rw [hfk] at heq
      simp at heq
    · rw [hfk] at heq
      by_cases hc : check j = true
      · simp [hc] at heq
      · rw [Bool.not_eq_true] at hc
        simp [hc] at heq
        subst heq
        exact ⟨t1, by rw [he1] at ht1; exact ht1,
          t2, by rw [he2] at ht2; exact ht2, j, hfk, hc⟩

/-- Witness for C6 at resolution 2 with the serial leg model. -/
theorem get_workspace_scan_properties_witness :
    (scan_pairs 2).length = 2 * 2 :=
  (get_workspace_scan_properties (serial_forward_kinematics ⟨50, 95, 0, 0⟩)
    serial_check_collisions 2 (by norm_num)).1

lemma mem_foldl_toggle (es : List (ℕ × ℕ)) :
    ∀ (bd : Finset (ℕ × ℕ)) (e : ℕ × ℕ),
      e ∈ es.foldl toggle_edge bd ↔ Xor' (e ∈ bd) (Odd (es.count e)) := by
  induction es with
  | nil =>
    intro bd e
    simp [Xor']
  | cons x rest ih =>
    intro bd e
    rw [List.foldl_cons, ih]
    by_cases hx : x = e
    · subst hx
      have ht : (x ∈ toggle_edge bd x) ↔ ¬ (x ∈ bd) := by
        unfold toggle_edge
        split_ifs with h <;> simp [h]
      have hodd : Odd ((x :: rest).count x) ↔ ¬ Odd (rest.count x) := by
        rw [List.count_cons_self, Nat.odd_add_one]
      rw [ht, hodd]
      unfold Xor'
      tauto
    · have ht : (e ∈ toggle_edge bd x) ↔ e ∈ bd := by
        unfold toggle_edge
        split_ifs with h
        · rw [Finset.mem_erase]
          constructor
          · exact fun h2 => h2.2
          · exact fun h2 => ⟨fun he => hx he.symm, h2⟩
        · rw [Finset.mem_insert]
          constructor
          · rintro (he | he)
            · exact absurd he.symm hx
            · exact he
          · exact Or.inr
      have hcnt : (x :: rest).count e = rest.count e :=
        List.count_cons_of_ne (fun he => hx he.symm) rest
      rw [ht, hcnt]

lemma hull_fold_area (points : List Point) (alpha : ℝ) :
    ∀ (L : List (ℕ × ℕ × ℕ)) (area : ℝ) (bd : Finset (ℕ × ℕ)),
      (hull_fold points alpha L (area, bd)).1 = area +
        ((L.filter fun sx => decide (retained points alpha sx)).map
          (tri_area points)).sum := by
  intro L
  induction L with
  | nil =>
    intro area bd
    simp [hull_fold]
  | cons sx rest ih =>
    intro area bd
    simp only [hull_fold]
    by_cases h1 : tri_area points sx < 1e-5
    · rw [if_pos h1, ih]
      have hd : decide (retained points alpha sx) = false :=
        decide_eq_false (fun hr => absurd hr.1 (not_le.mpr h1))
      simp [List.filter_cons, hd]
    · by_cases h2 : tri_circum_r points sx < 1 / alpha
      · rw [if_neg h1, if_pos h2, ih]
        have hd : decide (retained points alpha sx) = true :=
          decide_eq_true ⟨not_lt.mp h1, h2⟩
        simp only [List.filter_cons, hd, if_true, List.map_cons, List.sum_cons]
        ring
      · rw [if_neg h1, if_neg h2, ih]
        have hd : decide (retained points alpha sx) = false :=
          decide_eq_false (fun hr => absurd hr.2 h2)
        simp [List.filter_cons, hd]

lemma hull_fold_boundary (points : List Point) (alpha : ℝ) :
    ∀ (L : List (ℕ × ℕ × ℕ)) (area : ℝ) (bd : Finset (ℕ × ℕ)) (e : ℕ × ℕ),
      (e ∈ (hull_fold points alpha L (area, bd)).2) ↔
        Xor' (e ∈ bd)
          (Odd (((L.filter fun sx => decide (retained points alpha sx)).bind
            simplex_edges).count e)) := by
  intro L
  induction L with
  | nil =>
    intro area bd e
    simp [hull_fold, Xor']
  | cons sx rest ih =>
    intro area bd e
    simp only [hull_fold]
    by_cases h1 : tri_area points sx < 1e-5
    · rw [if_pos h1, ih]
      have hd : decide (retained points alpha sx) = false :=
        decide_eq_false (fun hr => absurd hr.1 (not_le.mpr h1))
      simp [List.filter_cons, hd]
    · by_cases h2 : tri_circum_r points sx < 1 / alpha
      · rw [if_neg h1, if_pos h2, ih]
        have hd : decide (retained points alpha sx) = true :=
          decide_eq_true ⟨not_lt.mp h1, h2⟩
        rw [mem_foldl_toggle]
        simp only [List.filter_cons, hd, if_true, List.cons_bind,
          List.count_append]
        rw [Nat.odd_add]
        unfold Xor'
        rw [Nat.even_iff_not_odd]
        tauto
      · rw [if_neg h1, if_neg h2, ih]
        have hd : decide (retained points alpha sx) = false :=
          decide_eq_false (fun hr => absurd hr.2 h2)
        simp [List.filter_cons, hd]

/-- C5: with at least 4 points, the returned area is the sum of the areas of
exactly the retained triangles (Heron area at least 1e-5 and circumradius
strictly below 1/alpha), an edge is in the boundary set exactly when it
occurs an odd number of times among the retained triangles' unordered edge
keys, and the returned segments are the boundary set's edges mapped to point
pairs. -/
theorem calculate_concave_hull_spec (points : List Point)
    (simplices : List (ℕ × ℕ × ℕ)) (alpha : ℝ) (h4 : 4 ≤ points.length) :
    (calculate_concave_hull points simplices alpha).1 =
      ((simplices.filter fun sx => decide (retained points alpha sx)).map
        (tri_area points)).sum ∧
    (∀ e : ℕ × ℕ, e ∈ (hull_fold points alpha simplices (0, ∅)).2 ↔
      Odd (((simplices.filter fun sx =>
        decide (retained points alpha sx)).bind simplex_edges).count e)) ∧
    (calculate_concave_hull points simplices alpha).2 =
      ((hull_fold points alpha simplices (0, ∅)).2.toList.map
        fun e => (points.getD e.1 (0, 0), points.getD e.2 (0, 0))) := by
  have hnot : ¬ points.length < 4 := not_lt.mpr h4
  refine ⟨?_, ?_, ?_⟩
  · unfold calculate_concave_hull
    rw [if_neg hnot]
    simp only
    rw [hull_fold_area]
    ring
  · intro e
    rw [hull_fold_boundary]
    simp [Xor']
  · unfold calculate_concave_hull
    rw [if_neg hnot]

/-- Witness for C5 on a concrete 4-point cloud with an empty simplex list. -/
theorem calculate_concave_hull_spec_witness :
    (calculate_concave_hull
        [((0 : ℝ), (0 : ℝ)), ((1 : ℝ), (0 : ℝ)), ((0 : ℝ), (1 : ℝ)),
          ((1 : ℝ), (1 : ℝ))] [] 0.04).1 =
      ((([] : List (ℕ × ℕ × ℕ)).filter fun sx =>
        decide (retained
          [((0 : ℝ), (0 : ℝ)), ((1 : ℝ), (0 : ℝ)), ((0 : ℝ), (1 : ℝ)),
            ((1 : ℝ), (1 : ℝ))] 0.04 sx)).map
        (tri_area
          [((0 : ℝ), (0 : ℝ)), ((1 : ℝ), (0 : ℝ)), ((0 : ℝ), (1 : ℝ)),
            ((1 : ℝ), (1 : ℝ))])).sum :=
  (calculate_concave_hull_spec
    [((0 : ℝ), (0 : ℝ)), ((1 : ℝ), (0 : ℝ)), ((0 : ℝ), (1 : ℝ)),
      ((1 : ℝ), (1 : ℝ))] [] 0.04 (by simp)).1

lemma try_widths_spec (hull : List (Point × Point)) (min_y : ℝ) (n : ℕ)
    (aspect center_y best : ℝ) : ∀ ws : List ℝ,
    try_widths hull min_y n aspect center_y best ws = 0 ∨
      width_ok hull min_y n aspect center_y
        (try_widths hull min_y n aspect center_y best ws) := by
  intro ws
  induction ws with
  | nil =>
    left
    rfl
  | cons w rest ih =>
    simp only [try_widths]
    split_ifs with h1 h2
    · left
      rfl
    · right
      exact h2
    · exact ih

lemma search_centers_spec (hull : List (Point × Point)) (min_y : ℝ) (n : ℕ)
    (aspect : ℝ) : ∀ (centers : List (ℕ × ℝ)) (acc : ℝ × ℝ),
    0 ≤ acc.1 → (acc.1 = 0 → acc.2 = 0) →
    (acc.1 ≠ 0 → width_ok hull min_y n aspect acc.2 acc.1) →
    (0 ≤ (search_centers hull min_y n aspect centers acc).1 ∧
      ((search_centers hull min_y n aspect centers acc).1 = 0 →
        (search_centers hull min_y n aspect centers acc).2 = 0) ∧
      ((search_centers hull min_y n aspect centers acc).1 ≠ 0 →
        width_ok hull min_y n aspect
          (search_centers hull min_y n aspect centers acc).2
          (search_centers hull min_y n aspect centers acc).1)) := by
  intro centers
  induction centers with
  | nil =>
    intro acc h1 h2 h3
    exact ⟨h1, h2, h3⟩
  | cons c rest ih =>
    intro acc h1 h2 h3
    obtain ⟨i, center_y⟩ := c
    obtain ⟨bw, bys⟩ := acc
    simp only [search_centers]
    split_ifs with hskip hupd
    · exact ih (bw, bys) h1 h2 h3
    · have hpos : (0 : ℝ) < try_widths hull min_y n aspect center_y bw
        (test_widths (profile_radius hull min_y i * 2.0)) :=
        lt_of_le_of_lt h1 hupd
      refine ih _ (le_of_lt hpos) ?_ ?_
      · intro h0
        exact absurd h0 (ne_of_gt hpos)
      · intro _
        rcases try_widths_spec hull min_y n aspect center_y bw
          (test_widths (profile_radius hull min_y i * 2.0)) with h0 | hok
        · exact absurd h0 (ne_of_gt hpos)
        · exact hok
    · exact ih (bw, bys) h1 h2 h3

/-- C7: calculate_max_centered_ellipse returns (0,0,0) on an empty boundary
and whenever no valid center was found (best width 0); its height component
is always width times 0.5; and whenever the returned width is nonzero the
returned (center, width) pair satisfies the non-collision invariant: its
covered index range is inside the profile array and every covered row's
required half-width stays within that row's profile radius. -/
theorem calculate_max_centered_ellipse_spec
    (hull_lines : List (Point × Point)) :
    (hull_lines = [] →
      calculate_max_centered_ellipse hull_lines 0.5 = (0, 0, 0)) ∧
    ((calculate_max_centered_ellipse hull_lines 0.5).2.1 = 0 →
      calculate_max_centered_ellipse hull_lines 0.5 = (0, 0, 0)) ∧
    ((calculate_max_centered_ellipse hull_lines 0.5).2.2 =
      (calculate_max_centered_ellipse hull_lines 0.5).2.1 * 0.5) ∧
    ((calculate_max_centered_ellipse hull_lines 0.5).2.1 ≠ 0 →
      width_ok hull_lines (hull_min_y hull_lines) (hull_n_points hull_lines)
        0.5 (calculate_max_centered_ellipse hull_lines 0.5).1
        (calculate_max_centered_ellipse hull_lines 0.5).2.1) := by
  by_cases hempty : hull_lines = []
  · have hres : calculate_max_centered_ellipse hull_lines 0.5 = (0, 0, 0) := by
      unfold calculate_max_centered_ellipse
      rw [if_pos hempty]
    refine ⟨fun _ => hres, fun _ => hres, ?_, ?_⟩
    · rw [hres]
      norm_num
    · rw [hres]
      intro h0
      exact absurd rfl h0
  · by_cases hys : hull_ys hull_lines = []
    · have hres : calculate_max_centered_ellipse hull_lines 0.5 = (0, 0, 0) := by
        unfold calculate_max_centered_ellipse
        rw [if_neg hempty, if_pos hys]
      refine ⟨fun _ => hres, fun _ => hres, ?_, ?_⟩
      · rw [hres]
        norm_num
      · rw [hres]
        intro h0
        exact absurd rfl h0
    · have hres : calculate_max_centered_ellipse hull_lines 0.5 =
        ((search_centers hull_lines (hull_min_y hull_lines)
            (hull_n_points hull_lines) 0.5 (scan_centers hull_lines) (0, 0)).2,
          (search_centers hull_lines (hull_min_y hull_lines)
            (hull_n_points hull_lines) 0.5 (scan_centers hull_lines) (0, 0)).1,
          (search_centers hull_lines (hull_min_y hull_lines)
            (hull_n_points hull_lines) 0.5 (scan_centers hull_lines) (0, 0)).1
            * 0.5) := by
        unfold calculate_max_centered_ellipse
        rw [if_neg hempty, if_neg hys]
      obtain ⟨hge, hzero, hok⟩ := search_centers_spec hull_lines
        (hull_min_y hull_lines) (hull_n_points hull_lines) 0.5
        (scan_centers hull_lines) (0, 0) le_rfl (fun _ => rfl)
        (fun h0 => absurd rfl h0)
      refine ⟨fun h => absurd h hempty, ?_, ?_, ?_⟩
      · intro h0
        rw [hres] at h0 ⊢
        simp only at h0
        rw [h0, hzero h0]
        norm_num
      · rw [hres]
      · intro hne
        rw [hres] at hne ⊢
        simp only at hne
        exact hok hne
